import Mathlib

/-
Verification of the resilience layer and subscription orchestrator of the
3xui-api-client repository, as a shallow embedding in Lean 4.

Conventions of the embedding:
* Timestamps (Date.now) are integers in milliseconds, passed explicitly as
  a parameter `now`; backoff delays only affect scheduling, never results,
  and are not modelled.
* JavaScript exceptions become `Except` values; the error classes of
  types.ts become the inductive `XUIError`.
* Effectful operations against the remote panel are parameters: the
  environment supplies the outcome of each network interaction, indexed by
  how many such interactions happened before it.
* Random generation (crypto.randomUUID, the random email generator) is
  modelled by a supply of values indexed by a counter in a `Gen` record.
* JavaScript numbers holding byte counts, timestamps and limits are `Int`
  (the code only validates integrality, which is intrinsic here).
-/

namespace ThreeXUI

/-- ASCII lowercasing of one character, the relevant fragment of the
JavaScript toLowerCase used on protocol/security/network tags. -/
def lowerChar (c : Char) : Char :=
  if 'A' ≤ c ∧ c ≤ 'Z' then Char.ofNat (c.toNat + 32) else c

/-- ASCII lowercasing of a string (`s.toLowerCase()`), kept
kernel-executable. -/
def lowerStr (s : String) : String := ⟨s.data.map lowerChar⟩

/-- Whether a string is blank, i.e. `s.trim()` is empty (all characters
are whitespace; the tags involved are ASCII). -/
def isBlank (s : String) : Bool :=
  s.data.all fun c => c == ' ' || c == '\t' || c == '\n' || c == '\r'

/-- Error classes of types.ts: ApiError and its subclasses
AuthenticationError (statusCode 401), ValidationError (statusCode 400,
extra field name) and NetworkError. -/
inductive XUIError where
  | apiError (message : String) (statusCode : Option Int)
  | authenticationError (message : String)
  | validationError (message : String) (field : Option String)
  | networkError (message : String) (statusCode : Option Int)
deriving Repr, DecidableEq

namespace XUIError

/-- The `statusCode` property: AuthenticationError is constructed with 401,
ValidationError with 400 (see types.ts constructors). -/
def statusCode : XUIError → Option Int
  | .apiError _ st => st
  | .authenticationError _ => some 401
  | .validationError _ _ => some 400
  | .networkError _ st => st

/-- JavaScript `error instanceof NetworkError` (no subclass extends it). -/
def isNetworkError : XUIError → Bool
  | .networkError _ _ => true
  | _ => false

end XUIError

/-- Default `retryableErrors` predicate of `resilientApiCall` (utils.ts):
`error instanceof NetworkError && error.statusCode !== 401 &&
error.statusCode !== 403`.  A NetworkError without a statusCode is
retryable (`undefined !== 401`). -/
def defaultRetryable : XUIError → Bool
  | .networkError _ st => st != some 401 && st != some 403
  | _ => false

/-- Loop of `resilientApiCall` (utils.ts).  `remaining` is
`maxRetries - attempt`; the operation `fn` threads an explicit state `σ`
(in the source the closure mutates client/server state).  The result is
(final state, outcome, number of invocations of `fn`).  The condition
`attempt === maxRetries || !retryableErrors(error)` is the `remaining = 0`
equation plus the `retryable e` test; the backoff delay between attempts
does not influence the outcome and is not modelled. -/
def resilientGo {σ E T : Type} (retryable : E → Bool) (fn : σ → σ × Except E T) :
    Nat → σ → σ × Except E T × Nat
  | 0, s =>
    match fn s with
    | (s', .ok v) => (s', .ok v, 1)
    | (s', .error e) => (s', .error e, 1)
  | r + 1, s =>
    match fn s with
    | (s', .ok v) => (s', .ok v, 1)
    | (s', .error e) =>
      if retryable e then
        let out := resilientGo retryable fn r s'
        (out.1, out.2.1, out.2.2 + 1)
      else (s', .error e, 1)

/-- `resilientApiCall(fn, { maxRetries, backoffMs, retryableErrors })`
(utils.ts): attempts `fn` for `attempt = 0 .. maxRetries`. -/
def resilientApiCall {σ E T : Type} (retryable : E → Bool) (fn : σ → σ × Except E T)
    (maxRetries : Nat) (s : σ) : σ × Except E T × Nat :=
  resilientGo retryable fn maxRetries s

/-- State after `n` invocations of `fn` starting from `s`. -/
def iterState {σ E T : Type} (fn : σ → σ × Except E T) : Nat → σ → σ
  | 0, s => s
  | n + 1, s => iterState fn n (fn s).1

/-- Mutable fields of the CircuitBreaker class (utils.ts):
`failures` counter and the `nextAttempt` timestamp. Fresh instances start
with `failures = 0` and `nextAttempt = Date.now()` at construction. -/
structure CBState where
  failures : Nat
  nextAttempt : Int
deriving Repr, DecidableEq

/-- Observable outcome of one `CircuitBreaker.call`: either the breaker
threw its own OPEN error without invoking the wrapped function, or the
wrapped function was invoked and returned / threw. -/
inductive CBOutcome (E T : Type) where
  | fastFail
  | ok (v : T)
  | opError (e : E)
deriving Repr, DecidableEq

namespace CircuitBreaker

/-- Message of the ApiError thrown by an open breaker, for the instance
named 3x-ui-api constructed by XUIClient. -/
def openMessage : String :=
  "Circuit breaker for 3x-ui-api is OPEN. Service temporarily unavailable."

/-- `CircuitBreaker.call` (utils.ts): if `failures >= threshold` and
`Date.now() < nextAttempt`, throw without invoking `fn`; if
`failures >= threshold` but the timestamp has passed, reset `failures` to 0
first.  Then invoke `fn`: on success reset `failures` to 0; on failure
increment it and, if it reaches `threshold`, set
`nextAttempt = now + timeout`.  `fn` threads a state `σ`. -/
def call {σ E T : Type} (threshold : Nat) (timeout : Int) (now : Int)
    (fn : σ → σ × Except E T) (cb : CBState) (s : σ) : CBState × σ × CBOutcome E T :=
  if threshold ≤ cb.failures ∧ now < cb.nextAttempt then
    (cb, s, .fastFail)
  else
    let cb1 : CBState := if threshold ≤ cb.failures then { cb with failures := 0 } else cb
    match fn s with
    | (s', .ok v) => ({ cb1 with failures := 0 }, s', .ok v)
    | (s', .error e) =>
      let f := cb1.failures + 1
      if threshold ≤ f then (⟨f, now + timeout⟩, s', .opError e)
      else ({ cb1 with failures := f }, s', .opError e)

/-- The `isOpen` field of `CircuitBreaker.getStatus` (utils.ts):
`failures >= threshold && Date.now() < nextAttempt`. -/
def isOpen (threshold : Nat) (now : Int) (cb : CBState) : Bool :=
  decide (threshold ≤ cb.failures) && decide (now < cb.nextAttempt)

/-- A sequence of calls whose wrapped operation fails every time, at the
given timestamps (state of the wrapped operation is irrelevant). -/
def failTimes (threshold : Nat) (timeout : Int) (times : List Int) (cb : CBState) : CBState :=
  times.foldl
    (fun st t =>
      (call threshold timeout t (fun (u : Unit) => (u, (.error () : Except Unit Unit))) st ()).1)
    cb

end CircuitBreaker

/-- Session fields of XUIClient (client.ts): `sessionCookie`
(string or null; never stored empty by login), `isAuthenticated`,
`lastLoginTime` (0 at construction). -/
structure SessionState where
  sessionCookie : Option String
  isAuthenticated : Bool
  lastLoginTime : Int
deriving Repr, DecidableEq

/-- JavaScript truthiness of `this.sessionCookie` (null and the empty
string are falsy). -/
def cookiePresent : Option String → Bool
  | none => false
  | some c => !c.isEmpty

/-- The freshness window of `ensureAuthenticated`: one hour in ms. -/
def oneHour : Int := 60 * 60 * 1000

/-- Condition of `ensureAuthenticated` (client.ts):
`!this.isAuthenticated || !this.sessionCookie || sessionAge > oneHour`
where `sessionAge = Date.now() - this.lastLoginTime`. -/
def needsLogin (now : Int) (s : SessionState) : Bool :=
  !s.isAuthenticated || !cookiePresent s.sessionCookie || decide (now - s.lastLoginTime > oneHour)

/-- Environment of one XUIClient: outcomes of the network interactions.
`loginCookie i` is the session cookie extracted from the set-cookie
headers of the i-th login request (the header scan of `login()` is
abstracted to its result; the empty string models finding no cookie), or a
transport error.  `rawStatus i cookie` is the HTTP status produced by the
i-th authenticated raw request when sent with the given Cookie header, or
a transport error (timeout / connection failure, surfaced by
`makeRawRequest` as a NetworkError). -/
structure HttpEnv where
  loginCookie : Nat → Except XUIError String
  rawStatus : Nat → String → Except XUIError Nat

/-- Full observable state of one XUIClient, with counters of how many
logins and authenticated raw requests have been issued. -/
structure XUIState where
  session : SessionState
  logins : Nat
  raws : Nat
deriving Repr, DecidableEq

/-- `login()` (client.ts): issues the login request; if no session cookie
can be extracted, throws AuthenticationError; on success stores the
cookie, sets the flag, and stamps `lastLoginTime = Date.now()`.  The catch
block clears the flag and the cookie on any failure and rethrows (the
message enrichment of createErrorWithContext does not change the error
class and is not modelled). -/
def login (env : HttpEnv) (now : Int) (st : XUIState) : XUIState × Except XUIError Unit :=
  let i := st.logins
  let st := { st with logins := i + 1 }
  match env.loginCookie i with
  | .error e =>
    ({ st with session := { st.session with isAuthenticated := false, sessionCookie := none } },
      .error e)
  | .ok c =>
    if c.isEmpty then
      ({ st with session := { st.session with isAuthenticated := false, sessionCookie := none } },
        .error (.authenticationError "No session cookie received from server"))
    else
      ({ st with session := ⟨some c, true, now⟩ }, .ok ())

/-- `ensureAuthenticated()` (client.ts): re-login exactly when the flag is
unset, no cookie is held, or the session is older than one hour. -/
def ensureAuthenticated (env : HttpEnv) (now : Int) (st : XUIState) :
    XUIState × Except XUIError Unit :=
  if needsLogin now st.session then login env now st else (st, .ok ())

/-- The Cookie header sent by `makeHttpRequest`:
`this.sessionCookie || ''`. -/
def cookieHeader (s : SessionState) : String := (s.sessionCookie).getD ""

/-- `makeRawRequest` as used from `makeHttpRequest` (client.ts): one HTTP
round trip, abstracted to the status supplied by the environment for the
current raw-request index and Cookie header. -/
def makeRawRequest (env : HttpEnv) (st : XUIState) (cookie : String) :
    XUIState × Except XUIError Nat :=
  ({ st with raws := st.raws + 1 }, env.rawStatus st.raws cookie)

/-- `makeHttpRequest` (client.ts): ensure authentication, send the request
with the held cookie; on a 401 response clear the session (flag and
cookie), `login()` again, and replay the request once with the freshly
stored cookie, returning the replayed response whatever its status. -/
def makeHttpRequest (env : HttpEnv) (now : Int) (st : XUIState) :
    XUIState × Except XUIError Nat :=
  match ensureAuthenticated env now st with
  | (st, .error e) => (st, .error e)
  | (st, .ok _) =>
    match makeRawRequest env st (cookieHeader st.session) with
    | (st, .error e) => (st, .error e)
    | (st, .ok status) =>
      if status = 401 then
        let st := { st with
          session := { st.session with isAuthenticated := false, sessionCookie := none } }
        match login env now st with
        | (st, .error e) => (st, .error e)
        | (st, .ok _) => makeRawRequest env st (cookieHeader st.session)
      else (st, .ok status)

/-- `handleHttpError` (utils.ts), as a function of the response status,
its statusText and the optional `message` field of the decoded body. -/
def handleHttpError (status : Nat) (statusText : String) (dataMessage : Option String) :
    XUIError :=
  if status = 401 then .authenticationError "Invalid credentials or session expired"
  else if status = 403 then .authenticationError "Access forbidden. Check your permissions."
  else if status = 404 then .apiError "Resource not found" (some 404)
  else if status = 422 then .validationError (dataMessage.getD "Validation failed") none
  else if 400 ≤ status ∧ status < 500 then
    .apiError (dataMessage.getD ("Client error: " ++ statusText)) (some status)
  else if 500 ≤ status then
    .networkError (dataMessage.getD ("Server error: " ++ statusText)) (some status)
  else .networkError ("HTTP " ++ toString status ++ ": " ++ statusText) (some status)

/-- `response.ok` of the fetch API: status in 200..299. -/
def responseOk (status : Nat) : Bool := decide (200 ≤ status) && decide (status < 300)

/-- Combined executor state threaded through `request` (client.ts): the
client state plus its circuit breaker. -/
structure ReqState where
  xui : XUIState
  cb : CBState
deriving Repr, DecidableEq

/-- One attempt of `request` (client.ts): the circuit breaker call wraps
`makeHttpRequest` only; body decoding is defensive (malformed payloads
become an empty object) so only the status drives control flow, and
`handleHttpError` is applied outside the breaker when `!response.ok`.
The payload returned on success is abstracted to the status. -/
def requestAttempt (env : HttpEnv) (now : Int) (s : ReqState) :
    ReqState × Except XUIError Nat :=
  match CircuitBreaker.call 5 60000 now (makeHttpRequest env now) s.cb s.xui with
  | (cb, xui, .fastFail) => (⟨xui, cb⟩, .error (.apiError CircuitBreaker.openMessage none))
  | (cb, xui, .opError e) => (⟨xui, cb⟩, .error e)
  | (cb, xui, .ok status) =>
    if responseOk status then (⟨xui, cb⟩, .ok status)
    else (⟨xui, cb⟩, .error (handleHttpError status "" none))

/-- `XUIClient.request` (client.ts): `resilientApiCall` over one attempt,
with the default retryability predicate, `maxRetries = retryAttempts`
(default 3).  The breaker of the constructor has threshold 5 and timeout
60000. -/
def XUIClient.request (env : HttpEnv) (now : Int) (retryAttempts : Nat) (s : ReqState) :
    ReqState × Except XUIError Nat × Nat :=
  resilientApiCall defaultRetryable (requestAttempt env now) retryAttempts s

/-- A field typed `number | 'unlimited'` in MassClientRequest. -/
inductive NumU where
  | num (n : Int)
  | unlimited
deriving Repr, DecidableEq

/-- TrafficUnit of types.ts: the closed union MB | GB | TB. -/
inductive TrafficUnit where
  | MB
  | GB
  | TB
deriving Repr, DecidableEq

/-- TrafficConfig of types.ts. -/
structure TrafficConfig where
  size : Int
  unit : TrafficUnit
  unlimited : Option Bool
deriving Repr, DecidableEq

/-- A field typed `TrafficConfig | 'unlimited'`. -/
inductive TrafficU where
  | config (c : TrafficConfig)
  | unlimited
deriving Repr, DecidableEq

structure VmessOpts where
  alterId : Option Int
  security : Option String
deriving Repr, DecidableEq

structure VlessOpts where
  flow : Option String
deriving Repr, DecidableEq

structure TrojanOpts where
  password : Option String
deriving Repr, DecidableEq

structure SsOpts where
  method : Option String
  password : Option String
deriving Repr, DecidableEq

/-- MassClientRequest of types.ts; `none` models an absent field. -/
structure MassClientRequest where
  subId : Option String
  enable : Option Bool
  limitIp : Option NumU
  traffic : Option TrafficU
  expiryDays : Option NumU
  reset : Option Int
  vmess : Option VmessOpts
  vless : Option VlessOpts
  trojan : Option TrojanOpts
  shadowsocks : Option SsOpts
deriving Repr, DecidableEq

/-- `convertIpLimit` (utils.ts): the unlimited sentinel maps to 0,
numbers are clamped below at 0. -/
def convertIpLimit : NumU → Int
  | .unlimited => 0
  | .num n => max 0 n

/-- The multipliers record of `convertTrafficToBytes` (utils.ts). -/
def trafficMultiplier : TrafficUnit → Int
  | .MB => 1024 * 1024
  | .GB => 1024 * 1024 * 1024
  | .TB => 1024 * 1024 * 1024 * 1024

/-- `convertTrafficToBytes` (utils.ts): the unlimited sentinel and a
truthy `unlimited` flag map to 0, otherwise size times the unit
multiplier. -/
def convertTrafficToBytes : TrafficU → Int
  | .unlimited => 0
  | .config c => if c.unlimited = some true then 0 else c.size * trafficMultiplier c.unit

/-- `convertExpiryDays` (utils.ts): the unlimited sentinel and
non-positive day counts map to 0, otherwise `Date.now()` plus the days in
milliseconds.  `Date.now()` is the explicit `now` parameter. -/
def convertExpiryDays (now : Int) : NumU → Int
  | .unlimited => 0
  | .num d => if d ≤ 0 then 0 else now + d * (24 * 60 * 60 * 1000)

/-- JavaScript falsiness of an optional string (undefined or empty). -/
def optionStrFalsy : Option String → Bool
  | none => true
  | some s => s.isEmpty

/-- `validateMassClientRequest` (inbound-manager.ts).  Integrality of
numeric fields (Number.isInteger) is intrinsic to the Int model, and the
unit membership check `['MB','GB','TB'].includes(unit)` cannot fail for
the closed TrafficUnit type, so those two tests are identically true
here; the sign tests are translated as written. -/
def validateMassClientRequest (r : MassClientRequest) : Except XUIError Unit :=
  if (match r.limitIp with | some (.num n) => decide (n < 0) | _ => false) then
    .error (.validationError "IP limit must be a non-negative integer or \"unlimited\""
      (some "limitIp"))
  else if (match r.traffic with | some (.config c) => decide (c.size ≤ 0) | _ => false) then
    .error (.validationError "Traffic size must be positive" (some "traffic.size"))
  else if (match r.expiryDays with | some (.num d) => decide (d < 0) | _ => false) then
    .error (.validationError "Expiry days must be a non-negative integer or \"unlimited\""
      (some "expiryDays"))
  else .ok ()

/-- Supply of random values: `uuids i` is the result of the (i+1)-th
`generateUUID()` call, `emails i` of the (i+1)-th
`generateRandomEmail()`. -/
structure Gen where
  uuids : Nat → String
  emails : Nat → String
  uuidIdx : Nat
  emailIdx : Nat

/-- `generateUUID()` (utils.ts; crypto.randomUUID abstracted to the
supply). -/
def genUUID (g : Gen) : String × Gen :=
  (g.uuids g.uuidIdx, { g with uuidIdx := g.uuidIdx + 1 })

/-- `generateRandomEmail()` (utils.ts), via `generateUniqueEmail`. -/
def genEmail (g : Gen) : String × Gen :=
  (g.emails g.emailIdx, { g with emailIdx := g.emailIdx + 1 })

/-- BaseClient of types.ts, with `subId` optional as produced by the
factory (it copies `request.subId`, which may be absent). -/
structure BaseClient where
  id : String
  email : String
  enable : Bool
  limitIp : Int
  totalGB : Int
  expiryTime : Int
  subId : Option String
  reset : Int
deriving Repr, DecidableEq

/-- Protocol-specific fields of the four client variants of types.ts. -/
inductive ClientVariant where
  | vmess (alterId : Int) (security : String)
  | vless (flow : String)
  | trojan (password : String)
  | shadowsocks (method : String) (password : String)
deriving Repr, DecidableEq

/-- A synthesized client: shared fields plus the protocol variant. -/
structure Client where
  base : BaseClient
  variant : ClientVariant
deriving Repr, DecidableEq

/-- Stream-transport settings as read by `determineVlessFlow`:
`network` and `security` may be absent at runtime (the code uses optional
chaining on them). -/
structure StreamSettings where
  network : Option String
  security : Option String
deriving Repr, DecidableEq

/-- A client record as found inside an inbound settings blob, with the
fields the subscription orchestrator reads. -/
structure RawClient where
  id : String
  email : String
  subId : Option String
  password : Option String
deriving Repr, DecidableEq

/-- `inbound.settings` at runtime (getAllSubscriptions): either an
embedded JSON string — whose JSON.parse either succeeds (`strOk`) or
throws (`strBad`) — or an already parsed structure (`obj`).  JSON.parse
is abstracted to its outcome; `clients = none` covers a null settings
value and a missing clients field alike. -/
inductive SettingsRepr where
  | strOk (clients : Option (List RawClient))
  | strBad
  | obj (clients : Option (List RawClient))
deriving Repr, DecidableEq

/-- Inbound of types.ts, restricted to the fields the orchestrator and
factory read. -/
structure Inbound where
  id : Int
  remark : String
  protocol : String
  settings : SettingsRepr
  streamSettings : Option StreamSettings
deriving Repr, DecidableEq

/-- `determineVlessFlow` (inbound-manager.ts): an explicitly supplied
flow (`request.vless?.flow !== undefined`) is returned verbatim;
otherwise the flow is derived from the stream settings, with security and
network lowercased through optional chaining. -/
def determineVlessFlow (inbound : Inbound) (request : MassClientRequest) : String :=
  match request.vless.bind VlessOpts.flow with
  | some f => f
  | none =>
    match inbound.streamSettings with
    | none => ""
    | some ss =>
      let security := ss.security.map lowerStr
      let network := ss.network.map lowerStr
      if security == some "xtls" then "xtls-rprx-vision"
      else if security == some "tls" || security == some "reality" then ""
      else if network == some "tcp" && (optionStrFalsy security || security == some "none") then
        ""
      else if network == some "ws" || network == some "grpc" || network == some "h2" ||
          network == some "httpupgrade" then ""
      else ""

/-- The `limitIp` const of `createClientForProtocol`:
`request.limitIp ? convertIpLimit(request.limitIp) : 2` — note that the
number 0 is falsy in JavaScript, so an absent limit and an explicit 0
both take the default 2. -/
def clientLimitIp (request : MassClientRequest) : Int :=
  match request.limitIp with
  | none => 2
  | some (.num n) => if n = 0 then 2 else convertIpLimit (.num n)
  | some .unlimited => convertIpLimit .unlimited

/-- The `totalGB` const of `createClientForProtocol`:
`request.traffic ? convertTrafficToBytes(request.traffic) : 0`. -/
def clientTotalGB (request : MassClientRequest) : Int :=
  match request.traffic with
  | none => 0
  | some t => convertTrafficToBytes t

/-- The `expiryTime` const of `createClientForProtocol`:
`request.expiryDays ? convertExpiryDays(request.expiryDays) : 0` (0 is
falsy, and convertExpiryDays would map it to 0 as well). -/
def clientExpiryTime (now : Int) (request : MassClientRequest) : Int :=
  match request.expiryDays with
  | none => 0
  | some (.num d) => if d = 0 then 0 else convertExpiryDays now (.num d)
  | some .unlimited => convertExpiryDays now .unlimited

/-- `createClientForProtocol` (inbound-manager.ts): build the base client
(fresh email, fresh UUID id, converted limits, the subId copied from the
request), then the protocol variant selected on the lowercased protocol
tag, falling back to the vless shape for unknown protocols. -/
def createClientForProtocol (now : Int) (g : Gen) (inbound : Inbound)
    (request : MassClientRequest) : Client × Gen :=
  let eg := genEmail g
  let ug := genUUID eg.2
  let base : BaseClient :=
    { id := ug.1, email := eg.1, enable := request.enable.getD true,
      limitIp := clientLimitIp request, totalGB := clientTotalGB request,
      expiryTime := clientExpiryTime now request, subId := request.subId,
      reset := request.reset.getD 0 }
  match lowerStr inbound.protocol with
  | "vmess" =>
    (⟨base, .vmess ((request.vmess.bind VmessOpts.alterId).getD 0)
      ((request.vmess.bind VmessOpts.security).getD "auto")⟩, ug.2)
  | "vless" => (⟨base, .vless (determineVlessFlow inbound request)⟩, ug.2)
  | "trojan" =>
    match request.trojan.bind TrojanOpts.password with
    | some p => (⟨base, .trojan p⟩, ug.2)
    | none => let pg := genUUID ug.2; (⟨base, .trojan pg.1⟩, pg.2)
  | "shadowsocks" =>
    let method := (request.shadowsocks.bind SsOpts.method).getD "aes-256-gcm"
    match request.shadowsocks.bind SsOpts.password with
    | some p => (⟨base, .shadowsocks method p⟩, ug.2)
    | none => let pg := genUUID ug.2; (⟨base, .shadowsocks method pg.1⟩, pg.2)
  | _ => (⟨base, .vless (determineVlessFlow inbound request)⟩, ug.2)

/-- One entry of the per-inbound result list of the mass-creation
operations. -/
structure MassItemResult where
  inboundId : Int
  inboundRemark : String
  protocol : String
  success : Bool
  error : Option String
deriving Repr, DecidableEq

/-- Aggregate returned by the mass-creation operations. -/
structure MassCreateResult where
  success : Nat
  failed : Nat
  results : List MassItemResult
deriving Repr, DecidableEq

/-- The sequential per-inbound loop of `createClientOnAllInbounds`:
for each inbound, synthesize the client, attempt `addClient` (a server
call whose outcome — success, or the message of the thrown error — the
environment supplies per iteration index), and record the result; a
failure never aborts the remaining iterations.  Also returns every client
synthesized in the run and the final generator state. -/
def massCreateLoop (now : Int) (request : MassClientRequest) (addResult : Nat → Option String) :
    List Inbound → Nat → Gen → MassCreateResult × List Client × Gen
  | [], _, g => (⟨0, 0, []⟩, [], g)
  | ib :: rest, i, g =>
    let cg := createClientForProtocol now g ib request
    let out := massCreateLoop now request addResult rest (i + 1) cg.2
    match addResult i with
    | none =>
      (⟨out.1.success + 1, out.1.failed,
        ⟨ib.id, ib.remark, ib.protocol, true, none⟩ :: out.1.results⟩,
        cg.1 :: out.2.1, out.2.2)
    | some msg =>
      (⟨out.1.success, out.1.failed + 1,
        ⟨ib.id, ib.remark, ib.protocol, false, some msg⟩ :: out.1.results⟩,
        cg.1 :: out.2.1, out.2.2)

/-- `createClientOnAllInbounds` (inbound-manager.ts): validate the
request, generate one subId up front when none was supplied
(`if (!request.subId) request.subId = generateUUID()`), then iterate the
inbound list sequentially (the fetch of /list is abstracted: `inbounds`
is its decoded obj). -/
def createClientOnAllInbounds (now : Int) (g : Gen) (inbounds : List Inbound)
    (addResult : Nat → Option String) (request : MassClientRequest) :
    Except XUIError (MassCreateResult × List Client × Gen) :=
  match validateMassClientRequest request with
  | .error e => .error e
  | .ok _ =>
    let rg : MassClientRequest × Gen :=
      if optionStrFalsy request.subId then
        let ug := genUUID g
        ({ request with subId := some ug.1 }, ug.2)
      else (request, g)
    .ok (massCreateLoop now rg.1 addResult inbounds 0 rg.2)

/-- One member of a subscription group, as pushed by
`getAllSubscriptions`. -/
structure SubClientInfo where
  client : RawClient
  inboundId : Int
  inboundRemark : String
  inboundProtocol : String
deriving Repr, DecidableEq

/-- SubscriptionInfo of types.ts. -/
structure SubscriptionInfo where
  subId : String
  clients : List SubClientInfo
deriving Repr, DecidableEq

/-- The clients visible to the scan for one settings value: a string that
fails to parse makes the scan `continue` to the next inbound, which
contributes the same as an absent clients list. -/
def settingsClients : SettingsRepr → Option (List RawClient)
  | .strOk cs => cs
  | .strBad => none
  | .obj cs => cs

/-- Whether the settings blob is a string that fails JSON.parse (the
skipped-with-a-warning case of the scan). -/
def settingsParseFails : SettingsRepr → Bool
  | .strBad => true
  | _ => false

/-- The (subId, member) pairs one inbound contributes to the scan of
`getAllSubscriptions`: its parsed clients that carry a truthy subId, in
list order, each paired with the owning inbound id/remark/protocol. -/
def inboundEntries (ib : Inbound) : List (String × SubClientInfo) :=
  ((settingsClients ib.settings).getD []).filterMap fun c =>
    match c.subId with
    | some s => if s.isEmpty then none else some (s, ⟨c, ib.id, ib.remark, ib.protocol⟩)
    | none => none

/-- All such pairs over the inbound list, in scan order. -/
def allEntries (inbounds : List Inbound) : List (String × SubClientInfo) :=
  inbounds.flatMap inboundEntries

/-- One `subscriptionsMap` update of `getAllSubscriptions`: push the
member onto the group keyed by `sid`, creating the group at the end on
first sight (a JavaScript Map preserves insertion order). -/
def addToSubs (subs : List SubscriptionInfo) (sid : String) (info : SubClientInfo) :
    List SubscriptionInfo :=
  match subs with
  | [] => [⟨sid, [info]⟩]
  | sub :: rest =>
    if sub.subId = sid then ⟨sub.subId, sub.clients ++ [info]⟩ :: rest
    else sub :: addToSubs rest sid info

/-- `getAllSubscriptions` (inbound-manager.ts): scan every inbound,
skipping settings strings that fail to parse, and group every client
carrying a truthy subId into the ordered map; the fetch of /list is
abstracted to the decoded inbound list.  The nested loops are flattened
into a fold over the entry stream. -/
def getAllSubscriptions (inbounds : List Inbound) : List SubscriptionInfo :=
  (allEntries inbounds).foldl (fun subs e => addToSubs subs e.1 e.2) []

/-- Keys of the groups, in order. -/
def subKeys (subs : List SubscriptionInfo) : List String := subs.map SubscriptionInfo.subId

/-- Members of the first group with the given key (empty when absent). -/
def clientsOf (subs : List SubscriptionInfo) (sid : String) : List SubClientInfo :=
  ((subs.find? fun sub => sub.subId == sid).map SubscriptionInfo.clients).getD []

/-- `getSubscriptionById` (inbound-manager.ts): reject a blank subId,
otherwise a linear find over `getAllSubscriptions`. -/
def getSubscriptionById (inbounds : List Inbound) (subId : String) :
    Except XUIError (Option SubscriptionInfo) :=
  if isBlank subId then .error (.validationError "SubId is required" (some "subId"))
  else .ok ((getAllSubscriptions inbounds).find? fun sub => sub.subId == subId)

/-- `getClientIdForProtocol` (inbound-manager.ts): the delete key per
protocol — id for vmess/vless and unknown tags, password for trojan
(an absent password is undefined in JavaScript, modelled as the empty
string), email for shadowsocks. -/
def getClientIdForProtocol (client : RawClient) (protocol : String) : String :=
  match lowerStr protocol with
  | "vmess" => client.id
  | "vless" => client.id
  | "trojan" => client.password.getD ""
  | "shadowsocks" => client.email
  | _ => client.id

/-- One entry of the per-client result list of `deleteClientsBySubId`. -/
structure DeleteItemResult where
  inboundId : Int
  clientEmail : String
  success : Bool
  error : Option String
deriving Repr, DecidableEq

/-- Aggregate returned by `deleteClientsBySubId`. -/
structure DeleteResult where
  success : Nat
  failed : Nat
  results : List DeleteItemResult
deriving Repr, DecidableEq

/-- The sequential per-member loop of `deleteClientsBySubId`: derive the
protocol-correct delete key and issue one `deleteClient` server call per
member (outcome supplied by the environment per iteration index),
recording each result independently.  Also counts the delete calls
issued. -/
def deleteLoop (delResult : Nat → Option String) :
    List SubClientInfo → Nat → DeleteResult × Nat
  | [], _ => (⟨0, 0, []⟩, 0)
  | info :: rest, i =>
    let _key := getClientIdForProtocol info.client info.inboundProtocol
    let out := deleteLoop delResult rest (i + 1)
    match delResult i with
    | none =>
      (⟨out.1.success + 1, out.1.failed,
        ⟨info.inboundId, info.client.email, true, none⟩ :: out.1.results⟩, out.2 + 1)
    | some msg =>
      (⟨out.1.success, out.1.failed + 1,
        ⟨info.inboundId, info.client.email, false, some msg⟩ :: out.1.results⟩, out.2 + 1)

/-- `deleteClientsBySubId` (inbound-manager.ts): reject a blank subId;
resolve the subscription via the same find as `getSubscriptionById`; an
absent subscription returns the zero aggregate at once; otherwise delete
every member with per-item accounting.  The second component counts the
delete calls issued. -/
def deleteClientsBySubId (inbounds : List Inbound) (delResult : Nat → Option String)
    (subId : String) : Except XUIError (DeleteResult × Nat) :=
  if isBlank subId then .error (.validationError "SubId is required" (some "subId"))
  else
    match (getAllSubscriptions inbounds).find? (fun sub => sub.subId == subId) with
    | none => .ok (⟨0, 0, []⟩, 0)
    | some sub => .ok (deleteLoop delResult sub.clients 0)

/-- First-seen deduplication with an accumulator of already seen keys. -/
def dedupFirstSeenAux (seen : List String) : List String → List String
  | [] => []
  | k :: rest =>
    if k ∈ seen then dedupFirstSeenAux seen rest
    else k :: dedupFirstSeenAux (k :: seen) rest

/-- The distinct keys of a list in first-seen order (the insertion order
of a JavaScript Map keyed by them). -/
def dedupFirstSeen (l : List String) : List String := dedupFirstSeenAux [] l

/-! ## Circuit breaker -/

lemma failTimes_run (threshold : Nat) (timeout : Int) :
    ∀ (times : List Int) (k : Nat) (na : Int),
      k + times.length = threshold → times ≠ [] →
      CircuitBreaker.failTimes threshold timeout times ⟨k, na⟩ =
        ⟨threshold, (times.getLast?.getD na) + timeout⟩ := by
  intro times
  induction times with
  | nil => intro k na _ hne; exact absurd rfl hne
  | cons t rest ih =>
    intro k na h _
    have hk : ¬ threshold ≤ k := by simp at h; omega
    rcases rest with _ | ⟨r, rs⟩
    · have hk1 : threshold ≤ k + 1 := by simp at h; omega
      have hth : threshold = k + 1 := by simp at h; omega
      simp [CircuitBreaker.failTimes, CircuitBreaker.call, hk, hk1, hth]
    · have hk1 : ¬ threshold ≤ k + 1 := by simp at h; omega
      have step :
          CircuitBreaker.failTimes threshold timeout (t :: r :: rs) ⟨k, na⟩ =
            CircuitBreaker.failTimes threshold timeout (r :: rs) ⟨k + 1, na⟩ := by
        simp [CircuitBreaker.failTimes, CircuitBreaker.call, hk, hk1]
      rw [step, ih (k + 1) na (by simp at h ⊢; omega) (by simp)]
      simp [List.getLast?_cons_cons]

/-- C6: fail-fast and reset.  (1) From a fresh breaker, `threshold`
consecutive failed calls leave the counter at `threshold` and schedule
`nextAttempt` at the time of the last failure plus `timeout`.  (2) Any
call made while the counter is at or above the threshold and before
`nextAttempt` returns the fast-fail outcome with both the breaker state
and the wrapped state untouched — the wrapped operation is not invoked.
(3) At the actual call site, such a call surfaces the OPEN ApiError.
(4) Every call whose wrapped invocation succeeds leaves the counter at
zero. -/
theorem circuitBreaker_fail_fast_and_reset (threshold : Nat) (timeout : Int)
    (hpos : 0 < threshold) :
    (∀ (times : List Int) (na : Int), times.length = threshold →
      CircuitBreaker.failTimes threshold timeout times ⟨0, na⟩ =
        ⟨threshold, (times.getLast?.getD na) + timeout⟩) ∧
    (∀ (σ E T : Type) (fn : σ → σ × Except E T) (cb : CBState) (s : σ) (now : Int),
      threshold ≤ cb.failures → now < cb.nextAttempt →
      CircuitBreaker.call threshold timeout now fn cb s = (cb, s, .fastFail)) ∧
    (∀ (env : HttpEnv) (now : Int) (s : ReqState),
      5 ≤ s.cb.failures → now < s.cb.nextAttempt →
      requestAttempt env now s = (s, .error (.apiError CircuitBreaker.openMessage none))) ∧
    (∀ (σ E T : Type) (fn : σ → σ × Except E T) (cb : CBState) (s : σ) (now : Int) (v : T),
      (CircuitBreaker.call threshold timeout now fn cb s).2.2 = .ok v →
      (CircuitBreaker.call threshold timeout now fn cb s).1.failures = 0) := by
  refine ⟨?_, ?_, ?_, ?_⟩
  · intro times na hlen
    have hne : times ≠ [] := by
      intro hnil; rw [hnil] at hlen; simp at hlen; omega
    exact failTimes_run threshold timeout times 0 na (by omega) hne
  · intro σ E T fn cb s now hf ht
    simp [CircuitBreaker.call, hf, ht]
  · intro env now s hf ht
    simp [requestAttempt, CircuitBreaker.call, hf, ht]
  · intro σ E T fn cb s now v hok
    unfold CircuitBreaker.call at hok ⊢
    by_cases h1 : threshold ≤ cb.failures ∧ now < cb.nextAttempt
    · rw [if_pos h1] at hok; simp at hok
    · rw [if_neg h1] at hok ⊢
      rcases h : fn s with ⟨s', r⟩
      rcases r with e | w
      · simp only [h] at hok
        split at hok <;> split at hok <;> simp at hok
      · simp [h]

/-- Closed instance of `circuitBreaker_fail_fast_and_reset` at the
default threshold 5 and timeout 60000. -/
theorem circuitBreaker_fail_fast_and_reset_witness :
    CircuitBreaker.failTimes 5 60000 [1, 2, 3, 4, 7] ⟨0, 0⟩ = ⟨5, 60007⟩ ∧
    CircuitBreaker.call 5 60000 10
        (fun (u : Unit) => (u, (.ok 0 : Except Unit Nat))) ⟨5, 60007⟩ () =
      (⟨5, 60007⟩, (), .fastFail) ∧
    (CircuitBreaker.call 5 60000 60007
        (fun (u : Unit) => (u, (.ok 0 : Except Unit Nat))) ⟨5, 60007⟩ ()).1.failures = 0 := by
  have h := circuitBreaker_fail_fast_and_reset 5 60000 (by decide)
  refine ⟨?_, ?_, ?_⟩
  · have := h.1 [1, 2, 3, 4, 7] 0 (by decide)
    simpa using this
  · exact h.2.1 Unit Unit Nat _ ⟨5, 60007⟩ () 10 (by decide) (by decide)
  · exact h.2.2.2 Unit Unit Nat _ ⟨5, 60007⟩ () 60007 0 (by decide)

/-- C1 counterexample: with the default threshold 5 and timeout 60000,
take the open state (failures = 5) whose permitted-retry timestamp 100
has elapsed at now = 100, and a probe operation that fails.  The claim
asserts the breaker immediately re-opens (counter back at or above the
threshold) with the timestamp extended to now + timeout; in fact the
counter is 1 (below 5) and the timestamp is unchanged at 100, not
60100. -/
theorem circuitBreaker_half_open_reopen_counterexample :
    (CircuitBreaker.call 5 60000 100
        (fun (u : Unit) => (u, (.error () : Except Unit Unit))) ⟨5, 100⟩ ()).1 = ⟨1, 100⟩ ∧
    ¬ (5 ≤ (1 : Nat)) ∧ (100 : Int) ≠ 100 + 60000 := by decide

/-- C1 (amended): once the failure counter has reached the threshold and
the permitted-retry timestamp has elapsed, the next call resets the
counter to zero and invokes the wrapped operation, mirroring its outcome;
if that probe fails, the counter becomes 1, so the breaker re-opens with
the timestamp extended to now + timeout only when the threshold is at
most 1 — for larger thresholds it stays closed with the timestamp
unchanged, and re-opens only after `threshold` further consecutive
failures. -/
theorem circuitBreaker_half_open_probe {σ E T : Type} (threshold : Nat) (timeout now : Int)
    (fn : σ → σ × Except E T) (cb : CBState) (s : σ)
    (hf : threshold ≤ cb.failures) (ht : cb.nextAttempt ≤ now) :
    CircuitBreaker.call threshold timeout now fn cb s =
      match fn s with
      | (s', .ok v) => (⟨0, cb.nextAttempt⟩, s', .ok v)
      | (s', .error e) =>
        (if threshold ≤ 1 then ⟨1, now + timeout⟩ else ⟨1, cb.nextAttempt⟩, s', .opError e) := by
  have hlt : ¬ now < cb.nextAttempt := by omega
  rcases h : fn s with ⟨s', r⟩
  rcases r with e | v
  · simp only [CircuitBreaker.call, hf, hlt, h]
    simp [hf]
    split <;> rfl
  · simp [CircuitBreaker.call, hf, hlt, h]

/-- Closed instance of `circuitBreaker_half_open_probe`: failed probe at
threshold 5 leaves the breaker at one failure with the timestamp
unchanged. -/
theorem circuitBreaker_half_open_probe_witness :
    CircuitBreaker.call 5 60000 100
        (fun (u : Unit) => (u, (.error () : Except Unit Unit))) ⟨5, 100⟩ () =
      (⟨1, 100⟩, (), .opError ()) := by
  have h := circuitBreaker_half_open_probe 5 60000 100
    (fun (u : Unit) => (u, (.error () : Except Unit Unit))) ⟨5, 100⟩ ()
    (by decide) (by decide)
  simpa using h

/-! ## Retry policy -/

lemma resilientGo_all_fail {σ E T : Type} (retryable : E → Bool) (fn : σ → σ × Except E T)
    (hfail : ∀ t, ∃ e, (fn t).2 = .error e ∧ retryable e = true) :
    ∀ (r : Nat) (s : σ),
      resilientGo retryable fn r s =
        (iterState fn (r + 1) s, (fn (iterState fn r s)).2, r + 1) := by
  intro r
  induction r with
  | zero =>
    intro s
    obtain ⟨e, he, _⟩ := hfail s
    rcases h : fn s with ⟨s', out⟩
    rw [h] at he; simp at he
    simp [resilientGo, h, he, iterState]
  | succ r ih =>
    intro s
    obtain ⟨e, he, hr⟩ := hfail s
    rcases h : fn s with ⟨s', out⟩
    rw [h] at he; simp at he
    subst he
    simp [resilientGo, h, hr, ih s', iterState, h]

/-- C5: retry policy.  (1) An operation failing on every attempt with a
retryable error is invoked exactly maxRetries + 1 times, and the failure
of the last invocation is re-raised unchanged.  (2) An operation whose
first failure is non-retryable is invoked exactly once and that failure
propagates.  (3) The default predicate deems retryable exactly the
Network-class failures whose status is neither 401 nor 403. -/
theorem retry_policy_attempts {σ T : Type} (fn : σ → σ × Except XUIError T) (n : Nat) (s : σ) :
    ((∀ t, ∃ e, (fn t).2 = .error e ∧ defaultRetryable e = true) →
      (resilientApiCall defaultRetryable fn n s).2.2 = n + 1 ∧
      (resilientApiCall defaultRetryable fn n s).2.1 = (fn (iterState fn n s)).2) ∧
    (∀ e, (fn s).2 = .error e → defaultRetryable e = false →
      resilientApiCall defaultRetryable fn n s = ((fn s).1, .error e, 1)) ∧
    (∀ e : XUIError, defaultRetryable e = true ↔
      (e.isNetworkError = true ∧ e.statusCode ≠ some 401 ∧ e.statusCode ≠ some 403)) := by
  refine ⟨?_, ?_, ?_⟩
  · intro hfail
    rw [resilientApiCall, resilientGo_all_fail defaultRetryable fn hfail n s]
    exact ⟨rfl, rfl⟩
  · intro e he hne
    rcases h : fn s with ⟨s', out⟩
    rw [h] at he; simp at he
    subst he
    rcases n with _ | m <;> simp [resilientApiCall, resilientGo, h, hne]
  · intro e
    rcases e with ⟨m, st⟩ | m | ⟨m, f⟩ | ⟨m, st⟩ <;>
      simp [defaultRetryable, XUIError.isNetworkError, XUIError.statusCode, bne_iff_ne]

/-- Closed instance of `retry_policy_attempts`: a permanent
network-failure operation with maxRetries = 2 runs three times; an
authentication failure runs once and propagates. -/
theorem retry_policy_attempts_witness :
    (resilientApiCall defaultRetryable
        (fun (k : Nat) => (k + 1, (.error (.networkError "boom" none) : Except XUIError Unit)))
        2 0).2.2 = 3 ∧
    resilientApiCall defaultRetryable
        (fun (k : Nat) => (k + 1, (.error (.authenticationError "no") : Except XUIError Unit)))
        2 0 = (1, .error (.authenticationError "no"), 1) := by
  constructor
  · exact ((retry_policy_attempts
      (fun (k : Nat) => (k + 1, (.error (.networkError "boom" none) : Except XUIError Unit)))
      2 0).1 (fun t => ⟨_, rfl, rfl⟩)).1
  · exact (retry_policy_attempts
      (fun (k : Nat) => (k + 1, (.error (.authenticationError "no") : Except XUIError Unit)))
      2 0).2.1 _ rfl rfl

/-! ## Session freshness and the 401 replay path -/

lemma login_logins (env : HttpEnv) (now : Int) (st : XUIState) :
    (login env now st).1.logins = st.logins + 1 := by
  rcases hl : env.loginCookie st.logins with e | c
  · simp [login, hl]
  · simp only [login, hl]
    split <;> simp

/-- C8: session freshness.  Before a privileged call,
`ensureAuthenticated` performs exactly one `login()` when the
authentication flag is unset, no cookie is held, or the session age
exceeds one hour — and performs none (leaving the state untouched)
otherwise; the trigger condition is exactly that disjunction. -/
theorem session_freshness (env : HttpEnv) (now : Int) (st : XUIState) :
    (needsLogin now st.session = true →
      ensureAuthenticated env now st = login env now st ∧
      (ensureAuthenticated env now st).1.logins = st.logins + 1) ∧
    (needsLogin now st.session = false →
      ensureAuthenticated env now st = (st, .ok ())) ∧
    (needsLogin now st.session = true ↔
      (st.session.isAuthenticated = false ∨ cookiePresent st.session.sessionCookie = false ∨
        oneHour < now - st.session.lastLoginTime)) := by
  refine ⟨?_, ?_, ?_⟩
  · intro h
    exact ⟨by simp [ensureAuthenticated, h], by simp [ensureAuthenticated, h, login_logins]⟩
  · intro h
    simp [ensureAuthenticated, h]
  · simp [needsLogin, Bool.or_eq_true, Bool.not_eq_true', decide_eq_true_iff]
    tauto

/-- Closed instance of `session_freshness`: at session age one hour plus
1 ms a login happens (counter 0 to 1); at age exactly one hour none
does. -/
theorem session_freshness_witness :
    needsLogin 3600001 ⟨some "c", true, 0⟩ = true ∧
    (ensureAuthenticated ⟨fun _ => .ok "session=z", fun _ _ => .ok 200⟩ 3600001
        ⟨⟨some "c", true, 0⟩, 0, 0⟩).1.logins = 1 ∧
    needsLogin 3600000 ⟨some "c", true, 0⟩ = false ∧
    ensureAuthenticated ⟨fun _ => .ok "session=z", fun _ _ => .ok 200⟩ 3600000
        ⟨⟨some "c", true, 0⟩, 0, 0⟩ = (⟨⟨some "c", true, 0⟩, 0, 0⟩, .ok ()) := by
  refine ⟨by decide, ?_, by decide, ?_⟩
  · exact ((session_freshness ⟨fun _ => .ok "session=z", fun _ _ => .ok 200⟩ 3600001
      ⟨⟨some "c", true, 0⟩, 0, 0⟩).1 (by decide)).2
  · exact (session_freshness ⟨fun _ => .ok "session=z", fun _ _ => .ok 200⟩ 3600000
      ⟨⟨some "c", true, 0⟩, 0, 0⟩).2.1 (by decide)

/-- C4: unauthorized replay.  When the first authenticated raw request of
a call answers 401, the client re-logs-in exactly once (login counter +1)
and replays the underlying request exactly once (raw counter +2) with the
freshly stored cookie, returning the replayed response.  If the replay is
again a 401, the whole `request` terminates after exactly one attempt
with the AuthenticationError produced by handleHttpError — the
non-retryable error is never retried, so there is at most one re-login
per call. -/
theorem unauthorized_replay (env : HttpEnv) (now : Int) (n : Nat) (s : ReqState)
    (st1 : XUIState) (c2 : String) (r2 : Nat)
    (hens : ensureAuthenticated env now s.xui = (st1, .ok ()))
    (h401 : env.rawStatus st1.raws (cookieHeader st1.session) = .ok 401)
    (hlog : env.loginCookie st1.logins = .ok c2)
    (hc2 : c2.isEmpty = false)
    (hrep : env.rawStatus (st1.raws + 1) c2 = .ok r2) :
    makeHttpRequest env now s.xui =
      ({ session := ⟨some c2, true, now⟩, logins := st1.logins + 1, raws := st1.raws + 2 },
        .ok r2) ∧
    (r2 = 401 → ¬ (5 ≤ s.cb.failures ∧ now < s.cb.nextAttempt) →
      (XUIClient.request env now n s).2 =
        (.error (.authenticationError "Invalid credentials or session expired"), 1)) := by
  have hmain : makeHttpRequest env now s.xui =
      ({ session := ⟨some c2, true, now⟩, logins := st1.logins + 1, raws := st1.raws + 2 },
        .ok r2) := by
    simp only [makeHttpRequest, hens, makeRawRequest, h401]
    simp only [login, hlog, hc2]
    simp [cookieHeader, hrep]
  refine ⟨hmain, ?_⟩
  intro h2 hcb
  subst h2
  have hatt : requestAttempt env now s =
      (⟨{ session := ⟨some c2, true, now⟩, logins := st1.logins + 1, raws := st1.raws + 2 },
          ⟨0, (if 5 ≤ s.cb.failures then ({ s.cb with failures := 0 } : CBState)
            else s.cb).nextAttempt⟩⟩,
        .error (.authenticationError "Invalid credentials or session expired")) := by
    simp only [requestAttempt, CircuitBreaker.call, hcb, if_neg, hmain]
    simp [responseOk, handleHttpError]
  rcases n with _ | m <;>
    simp [XUIClient.request, resilientApiCall, resilientGo, hatt, defaultRetryable]

/-- Closed instance of `unauthorized_replay`: a server that always
answers 401 yields one re-login, one replay, and a terminal
AuthenticationError after a single attempt. -/
theorem unauthorized_replay_witness :
    makeHttpRequest ⟨fun _ => .ok "session=z", fun _ _ => .ok 401⟩ 0
        ⟨⟨some "old", true, 0⟩, 0, 0⟩ =
      ({ session := ⟨some "session=z", true, 0⟩, logins := 1, raws := 2 }, .ok 401) ∧
    (XUIClient.request ⟨fun _ => .ok "session=z", fun _ _ => .ok 401⟩ 0 3
        ⟨⟨⟨some "old", true, 0⟩, 0, 0⟩, ⟨0, 0⟩⟩).2 =
      (.error (.authenticationError "Invalid credentials or session expired"), 1) := by
  have h := unauthorized_replay ⟨fun _ => .ok "session=z", fun _ _ => .ok 401⟩ 0 3
    ⟨⟨⟨some "old", true, 0⟩, 0, 0⟩, ⟨0, 0⟩⟩ ⟨⟨some "old", true, 0⟩, 0, 0⟩ "session=z" 401
    rfl rfl rfl (by decide) rfl
  exact ⟨h.1, h.2 rfl (by decide)⟩

/-! ## Protocol client factory -/

lemma createClientForProtocol_base (now : Int) (g : Gen) (inbound : Inbound)
    (request : MassClientRequest) :
    (createClientForProtocol now g inbound request).1.base =
      ⟨g.uuids g.uuidIdx, g.emails g.emailIdx, request.enable.getD true, clientLimitIp request,
        clientTotalGB request, clientExpiryTime now request, request.subId,
        request.reset.getD 0⟩ := by
  unfold createClientForProtocol
  split <;> first | rfl | (split <;> rfl)

/-- C3: VLESS flow derivation.  An explicitly supplied flow is used
verbatim; with no explicit flow, the derived flow is "xtls-rprx-vision"
exactly when the stream settings are present and their security
lowercases to "xtls", and the empty string in every other case (tls,
reality, tcp without security, ws/grpc/h2/httpupgrade, missing stream
settings, and any other combination). -/
theorem vless_flow_derivation (inbound : Inbound) (request : MassClientRequest) :
    (∀ f, request.vless.bind VlessOpts.flow = some f → determineVlessFlow inbound request = f) ∧
    (request.vless.bind VlessOpts.flow = none →
      determineVlessFlow inbound request =
        if (match inbound.streamSettings with
            | some ss => ss.security.map lowerStr == some "xtls"
            | none => false) = true
        then "xtls-rprx-vision" else "") := by
  constructor
  · intro f h
    simp [determineVlessFlow, h]
  · intro h
    simp only [determineVlessFlow, h]
    rcases hss : inbound.streamSettings with _ | ss
    · simp
    · by_cases hx : (ss.security.map lowerStr == some "xtls") = true
      · simp [hx]
      · simp only [hx]
        simp only [Bool.false_eq_true, if_false]
        split_ifs <;> rfl

/-- Closed instances of `vless_flow_derivation`: an explicit flow wins;
uppercase XTLS security derives the vision flow; tls and ws derive the
empty flow. -/
theorem vless_flow_derivation_witness :
    determineVlessFlow ⟨1, "r", "vless", .obj none, some ⟨some "tcp", some "XTLS"⟩⟩
      ⟨none, none, none, none, none, none, none, some ⟨some "zz"⟩, none, none⟩ = "zz" ∧
    determineVlessFlow ⟨1, "r", "vless", .obj none, some ⟨some "tcp", some "XTLS"⟩⟩
      ⟨none, none, none, none, none, none, none, none, none, none⟩ = "xtls-rprx-vision" ∧
    determineVlessFlow ⟨1, "r", "vless", .obj none, some ⟨some "tcp", some "tls"⟩⟩
      ⟨none, none, none, none, none, none, none, none, none, none⟩ = "" ∧
    determineVlessFlow ⟨1, "r", "vless", .obj none, some ⟨some "ws", none⟩⟩
      ⟨none, none, none, none, none, none, none, none, none, none⟩ = "" := by
  refine ⟨(vless_flow_derivation _ _).1 "zz" rfl, ?_, ?_, ?_⟩
  · rw [(vless_flow_derivation ⟨1, "r", "vless", .obj none, some ⟨some "tcp", some "XTLS"⟩⟩
      ⟨none, none, none, none, none, none, none, none, none, none⟩).2 rfl]
    decide
  · rw [(vless_flow_derivation ⟨1, "r", "vless", .obj none, some ⟨some "tcp", some "tls"⟩⟩
      ⟨none, none, none, none, none, none, none, none, none, none⟩).2 rfl]
    decide
  · rw [(vless_flow_derivation ⟨1, "r", "vless", .obj none, some ⟨some "ws", none⟩⟩
      ⟨none, none, none, none, none, none, none, none, none, none⟩).2 rfl]
    decide

/-- C10: implicit IP-limit default.  A mass-creation request whose
limitIp is absent or 0 yields synthesized clients with limitIp = 2 (0 is
falsy in the factory), even though validation accepts 0 exactly like an
absent value; only the unlimited sentinel — or a negative number clamped
by convertIpLimit, which validation would reject — yields 0. -/
theorem ip_limit_default (now : Int) (g : Gen) (inbound : Inbound)
    (request : MassClientRequest) :
    ((request.limitIp = none ∨ request.limitIp = some (.num 0)) →
      (createClientForProtocol now g inbound request).1.base.limitIp = 2) ∧
    (request.limitIp = some .unlimited →
      (createClientForProtocol now g inbound request).1.base.limitIp = 0) ∧
    (∀ m : Int, m < 0 → convertIpLimit (.num m) = 0) ∧
    (request.limitIp = some (.num 0) →
      validateMassClientRequest request =
        validateMassClientRequest { request with limitIp := none }) := by
  refine ⟨?_, ?_, ?_, ?_⟩
  · intro h
    rcases h with h | h <;>
      simp [createClientForProtocol_base, clientLimitIp, h]
  · intro h
    simp [createClientForProtocol_base, clientLimitIp, h, convertIpLimit]
  · intro m hm
    simp only [convertIpLimit]
    omega
  · intro h
    simp [validateMassClientRequest, h]

/-- Closed instances of `ip_limit_default`. -/
theorem ip_limit_default_witness :
    (createClientForProtocol 0 ⟨fun _ => "u", fun _ => "e", 0, 0⟩
        ⟨1, "r", "vless", .obj none, none⟩
        ⟨none, none, some (.num 0), none, none, none, none, none, none, none⟩).1.base.limitIp
      = 2 ∧
    (createClientForProtocol 0 ⟨fun _ => "u", fun _ => "e", 0, 0⟩
        ⟨1, "r", "vless", .obj none, none⟩
        ⟨none, none, some .unlimited, none, none, none, none, none, none, none⟩).1.base.limitIp
      = 0 ∧
    convertIpLimit (.num (-3)) = 0 ∧
    validateMassClientRequest
        ⟨none, none, some (.num 0), none, none, none, none, none, none, none⟩ =
      validateMassClientRequest ⟨none, none, none, none, none, none, none, none, none, none⟩ := by
  refine ⟨?_, ?_, ?_, ?_⟩
  · exact (ip_limit_default 0 _ _ _).1 (Or.inr rfl)
  · exact (ip_limit_default 0 _ _ _).2.1 rfl
  · exact (ip_limit_default 0 ⟨fun _ => "u", fun _ => "e", 0, 0⟩
      ⟨1, "r", "vless", .obj none, none⟩
      ⟨none, none, none, none, none, none, none, none, none, none⟩).2.2.1 (-3) (by decide)
  · exact (ip_limit_default 0 ⟨fun _ => "u", fun _ => "e", 0, 0⟩
      ⟨1, "r", "vless", .obj none, none⟩
      ⟨none, none, some (.num 0), none, none, none, none, none, none, none⟩).2.2.2 rfl

/-! ## Mass creation -/

lemma countP_isNone_isSome (f : Nat → Option String) (l : List Nat) :
    l.countP (fun j => (f j).isNone) + l.countP (fun j => (f j).isSome) = l.length := by
  induction l with
  | nil => simp
  | cons a l ih =>
    simp only [List.countP_cons]
    rcases f a <;> simp <;> omega

lemma massCreateLoop_spec (now : Int) (request : MassClientRequest)
    (addResult : Nat → Option String) :
    ∀ (inbounds : List Inbound) (i : Nat) (g : Gen),
      (massCreateLoop now request addResult inbounds i g).1.results =
        ((List.range' i inbounds.length).zip inbounds).map (fun p =>
          (⟨p.2.id, p.2.remark, p.2.protocol, (addResult p.1).isNone, addResult p.1⟩ :
            MassItemResult)) ∧
      (massCreateLoop now request addResult inbounds i g).1.failed =
        (List.range' i inbounds.length).countP (fun j => (addResult j).isSome) ∧
      (massCreateLoop now request addResult inbounds i g).1.success =
        (List.range' i inbounds.length).countP (fun j => (addResult j).isNone) ∧
      (massCreateLoop now request addResult inbounds i g).2.1.length = inbounds.length ∧
      ∀ c ∈ (massCreateLoop now request addResult inbounds i g).2.1,
        c.base.subId = request.subId := by
  intro inbounds
  induction inbounds with
  | nil => intro i g; simp [massCreateLoop]
  | cons ib rest ih =>
    intro i g
    obtain ⟨h1, h2, h3, h4, h5⟩ := ih (i + 1) (createClientForProtocol now g ib request).2
    rcases hadd : addResult i with _ | msg
    · refine ⟨?_, ?_, ?_, ?_, ?_⟩ <;>
        simp [massCreateLoop, hadd, List.range'_succ, List.countP_cons, h1, h2, h3, h4]
      · exact ⟨by rw [createClientForProtocol_base], h5⟩
    · refine ⟨?_, ?_, ?_, ?_, ?_⟩ <;>
        simp [massCreateLoop, hadd, List.range'_succ, List.countP_cons, h1, h2, h3, h4]
      · exact ⟨by rw [createClientForProtocol_base], h5⟩

/-- C2: mass creation accounting.  For a run over N target inbounds of
which exactly f fail, the aggregate is success = N - f, failed = f,
results.length = N, the per-target results are recorded in iteration
order with the matching inbound id/remark/protocol, N clients are
synthesized, and all of them carry one shared subscription id: the
caller-supplied one when the request has a truthy subId, and otherwise a
single UUID drawn from the supply once, up front, before iteration. -/
theorem mass_creation_accounting (now : Int) (g : Gen) (inbounds : List Inbound)
    (addResult : Nat → Option String) (request : MassClientRequest)
    (hv : validateMassClientRequest request = .ok ()) :
    ∃ res clients g2,
      createClientOnAllInbounds now g inbounds addResult request = .ok (res, clients, g2) ∧
      res.results.length = inbounds.length ∧
      res.success = (List.range inbounds.length).countP (fun j => (addResult j).isNone) ∧
      res.failed = (List.range inbounds.length).countP (fun j => (addResult j).isSome) ∧
      res.success + res.failed = inbounds.length ∧
      res.results = ((List.range inbounds.length).zip inbounds).map (fun p =>
        (⟨p.2.id, p.2.remark, p.2.protocol, (addResult p.1).isNone, addResult p.1⟩ :
          MassItemResult)) ∧
      clients.length = inbounds.length ∧
      ∃ sid, (if optionStrFalsy request.subId then sid = g.uuids g.uuidIdx
              else request.subId = some sid) ∧
        ∀ c ∈ clients, c.base.subId = some sid := by
  by_cases hs : optionStrFalsy request.subId = true
  · have hrun : createClientOnAllInbounds now g inbounds addResult request =
        .ok (massCreateLoop now { request with subId := some (g.uuids g.uuidIdx) } addResult
          inbounds 0 { g with uuidIdx := g.uuidIdx + 1 }) := by
      simp [createClientOnAllInbounds, hv, hs, genUUID]
    obtain ⟨h1, h2, h3, h4, h5⟩ := massCreateLoop_spec now
      { request with subId := some (g.uuids g.uuidIdx) } addResult inbounds 0
      { g with uuidIdx := g.uuidIdx + 1 }
    refine ⟨_, _, _, hrun, ?_, ?_, ?_, ?_, ?_, ?_, ?_⟩
    · rw [h1]; simp [List.range_eq_range']
    · rw [h3, List.range_eq_range']
    · rw [h2, List.range_eq_range']
    · rw [h3, h2]
      have := countP_isNone_isSome addResult (List.range' 0 inbounds.length)
      simpa using this
    · rw [h1, List.range_eq_range']
    · exact h4
    · exact ⟨g.uuids g.uuidIdx, by simp [hs], fun c hc => h5 c hc⟩
  · have hrun : createClientOnAllInbounds now g inbounds addResult request =
        .ok (massCreateLoop now request addResult inbounds 0 g) := by
      simp [createClientOnAllInbounds, hv, hs]
    rcases hsub : request.subId with _ | s
    · rw [hsub] at hs; simp [optionStrFalsy] at hs
    · obtain ⟨h1, h2, h3, h4, h5⟩ := massCreateLoop_spec now request addResult inbounds 0 g
      refine ⟨_, _, _, hrun, ?_, ?_, ?_, ?_, ?_, ?_, ?_⟩
      · rw [h1]; simp [List.range_eq_range']
      · rw [h3, List.range_eq_range']
      · rw [h2, List.range_eq_range']
      · rw [h3, h2]
        have := countP_isNone_isSome addResult (List.range' 0 inbounds.length)
        simpa using this
      · rw [h1, List.range_eq_range']
      · exact h4
      · refine ⟨s, ?_, fun c hc => by rw [h5 c hc, hsub]⟩
        have hf : optionStrFalsy (some s) = false := by
          rw [hsub] at hs; simpa using hs
        simp only [hsub, hf]
        simp


/-- Closed instance of `mass_creation_accounting`: two inbounds, the
first add fails, giving success 1, failed 1, two ordered results and a
shared subscription id. -/
theorem mass_creation_accounting_witness :
    ∃ res clients g2,
      createClientOnAllInbounds (0 : Int) ⟨fun _ => "u", fun _ => "e", 0, 0⟩
        [⟨1, "a", "vless", .obj none, none⟩, ⟨2, "b", "vmess", .obj none, none⟩]
        (fun i => if i = 0 then some "boom" else none)
        ⟨none, none, none, none, none, none, none, none, none, none⟩ = .ok (res, clients, g2) ∧
      res.success + res.failed = 2 ∧ res.results.length = 2 ∧
      ∃ sid, ∀ c ∈ clients, c.base.subId = some sid := by
  obtain ⟨res, clients, g2, hrun, hlen, hsucc, hfail, hsum, hres, hclen, sid, hsid, hall⟩ :=
    mass_creation_accounting 0 ⟨fun _ => "u", fun _ => "e", 0, 0⟩
      [⟨1, "a", "vless", .obj none, none⟩, ⟨2, "b", "vmess", .obj none, none⟩]
      (fun i => if i = 0 then some "boom" else none)
      ⟨none, none, none, none, none, none, none, none, none, none⟩ rfl
  exact ⟨res, clients, g2, hrun, by simpa using hsum, by simpa using hlen, sid, hall⟩

/-! ## Subscription grouping and deletion -/

lemma clientsOf_nil (sid : String) : clientsOf [] sid = [] := rfl

lemma clientsOf_cons (x : SubscriptionInfo) (l : List SubscriptionInfo) (sid : String) :
    clientsOf (x :: l) sid = if x.subId = sid then x.clients else clientsOf l sid := by
  by_cases h : x.subId = sid
  · simp [clientsOf, List.find?, h]
  · simp only [clientsOf, List.find?]
    rw [show (x.subId == sid) = false by simpa using h]
    simp [h]

lemma subKeys_cons (x : SubscriptionInfo) (l : List SubscriptionInfo) :
    subKeys (x :: l) = x.subId :: subKeys l := rfl

lemma subKeys_addToSubs (subs : List SubscriptionInfo) (sid : String) (info : SubClientInfo) :
    subKeys (addToSubs subs sid info) =
      if sid ∈ subKeys subs then subKeys subs else subKeys subs ++ [sid] := by
  induction subs with
  | nil => simp [addToSubs, subKeys]
  | cons sub rest ih =>
    by_cases h : sub.subId = sid
    · simp [addToSubs, subKeys, h]
    · have hne : ¬ (sid = sub.subId) := fun hx => h hx.symm
      simp only [addToSubs, if_neg h, subKeys_cons, ih, List.mem_cons]
      by_cases hm : sid ∈ subKeys rest
      · simp [hm, hne]
      · simp [hm, hne]

lemma clientsOf_addToSubs (subs : List SubscriptionInfo) (sid : String) (info : SubClientInfo)
    (sid2 : String) :
    clientsOf (addToSubs subs sid info) sid2 =
      if sid2 = sid then clientsOf subs sid ++ [info] else clientsOf subs sid2 := by
  induction subs with
  | nil =>
    by_cases h : sid2 = sid <;>
      simp [addToSubs, clientsOf_cons, clientsOf_nil, h, Ne.symm]
  | cons sub rest ih =>
    by_cases h : sub.subId = sid
    · by_cases h2 : sid2 = sid
      · simp [addToSubs, h, clientsOf_cons, h2]
      · have hne : sub.subId ≠ sid2 := by rw [h]; exact fun hx => h2 hx.symm
        have hne2 : ¬ (sid = sid2) := fun hx => h2 hx.symm
        simp [addToSubs, h, clientsOf_cons, h2, hne, hne2]
    · by_cases h2 : sub.subId = sid2
      · have hne : sid2 ≠ sid := by rw [← h2]; exact fun hx => h (by rw [hx])
        simp [addToSubs, h, clientsOf_cons, h2, hne]
      · simp [addToSubs, h, clientsOf_cons, h2, ih]

lemma groupFold_clientsOf (entries : List (String × SubClientInfo)) :
    ∀ (subs : List SubscriptionInfo) (sid : String),
      clientsOf (entries.foldl (fun ss e => addToSubs ss e.1 e.2) subs) sid =
        clientsOf subs sid ++ (entries.filter (fun e => e.1 == sid)).map Prod.snd := by
  induction entries with
  | nil => intro subs sid; simp
  | cons e es ih =>
    intro subs sid
    by_cases h : e.1 = sid
    · simp only [List.foldl_cons, ih, clientsOf_addToSubs, h]
      simp [List.filter_cons, h]
    · simp only [List.foldl_cons, ih, clientsOf_addToSubs]
      rw [if_neg (fun hx => h hx.symm)]
      simp [List.filter_cons, h]

lemma groupFold_keys_mem (entries : List (String × SubClientInfo)) :
    ∀ (subs : List SubscriptionInfo) (sid : String),
      sid ∈ subKeys (entries.foldl (fun ss e => addToSubs ss e.1 e.2) subs) ↔
        sid ∈ subKeys subs ∨ sid ∈ entries.map Prod.fst := by
  induction entries with
  | nil => intro subs sid; simp
  | cons e es ih =>
    intro subs sid
    simp only [List.foldl_cons, ih, subKeys_addToSubs]
    by_cases hm : e.1 ∈ subKeys subs
    · simp only [if_pos hm, List.map_cons, List.mem_cons]
      constructor
      · rintro (hx | hx)
        · exact Or.inl hx
        · exact Or.inr (Or.inr hx)
      · rintro (hx | hx | hx)
        · exact Or.inl hx
        · exact Or.inl (hx ▸ hm)
        · exact Or.inr hx
    · simp [hm, List.mem_append, or_assoc]

lemma groupFold_keys_nodup (entries : List (String × SubClientInfo)) :
    ∀ (subs : List SubscriptionInfo), (subKeys subs).Nodup →
      (subKeys (entries.foldl (fun ss e => addToSubs ss e.1 e.2) subs)).Nodup := by
  induction entries with
  | nil => intro subs h; simpa using h
  | cons e es ih =>
    intro subs h
    simp only [List.foldl_cons]
    apply ih
    rw [subKeys_addToSubs]
    by_cases hm : e.1 ∈ subKeys subs
    · simpa [hm] using h
    · simp [hm, List.nodup_append, h]


lemma find?_eq_self_of_nodup :
    ∀ (subs : List SubscriptionInfo), (subKeys subs).Nodup →
      ∀ gr ∈ subs, subs.find? (fun s => s.subId == gr.subId) = some gr := by
  intro subs
  induction subs with
  | nil => intro _ gr hgr; cases hgr
  | cons x l ih =>
    intro hnd gr hgr
    rw [subKeys_cons, List.nodup_cons] at hnd
    rcases List.mem_cons.mp hgr with hx | hx
    · subst hx
      simp [List.find?]
    · have hxne : x.subId ≠ gr.subId := by
        intro he
        exact hnd.1 (he ▸ (List.mem_map.mpr ⟨gr, hx, rfl⟩))
      rw [List.find?_cons_of_neg _ (by simpa using hxne)]
      exact ih hnd.2 gr hx

lemma mem_inboundEntries {ib : Inbound} {e : String × SubClientInfo}
    (he : e ∈ inboundEntries ib) :
    e.2.client.subId = some e.1 ∧ e.1 ≠ "" := by
  rcases e with ⟨e1, ec, eid, erem, eprot⟩
  simp only [inboundEntries, List.mem_filterMap] at he
  obtain ⟨c, _, hmatch⟩ := he
  rcases hs : c.subId with _ | s
  · rw [hs] at hmatch; simp at hmatch
  · rw [hs] at hmatch
    by_cases hemp : s.isEmpty
    · simp [hemp] at hmatch
    · simp [hemp] at hmatch
      obtain ⟨rfl, rfl, _⟩ := hmatch
      refine ⟨hs, fun hx => ?_⟩
      simp at hx
      rw [hx] at hemp
      exact hemp rfl

lemma inboundEntries_eq_nil_of_parseFails {ib : Inbound}
    (h : settingsParseFails ib.settings = true) : inboundEntries ib = [] := by
  rcases hset : ib.settings with cs | _ | cs <;>
      rw [hset] at h <;> try simp [settingsParseFails] at h
  simp [inboundEntries, settingsClients, hset]

lemma allEntries_cons (ib : Inbound) (rest : List Inbound) :
    allEntries (ib :: rest) = inboundEntries ib ++ allEntries rest := by
  simp [allEntries]

lemma allEntries_filter (inbounds : List Inbound) :
    allEntries (inbounds.filter fun ib => !settingsParseFails ib.settings) =
      allEntries inbounds := by
  induction inbounds with
  | nil => rfl
  | cons ib rest ih =>
    by_cases h : settingsParseFails ib.settings
    · simp [List.filter_cons, h, allEntries_cons, inboundEntries_eq_nil_of_parseFails h, ih]
    · simp [List.filter_cons, h, allEntries_cons, ih]

lemma dedupFirstSeenAux_congr :
    ∀ (l : List String) (seen1 seen2 : List String),
      (∀ a, a ∈ seen1 ↔ a ∈ seen2) →
      dedupFirstSeenAux seen1 l = dedupFirstSeenAux seen2 l := by
  intro l
  induction l with
  | nil => intro _ _ _; rfl
  | cons k rest ih =>
    intro seen1 seen2 hiff
    by_cases h : k ∈ seen1
    · rw [dedupFirstSeenAux, dedupFirstSeenAux, if_pos h, if_pos ((hiff k).mp h)]
      exact ih seen1 seen2 hiff
    · rw [dedupFirstSeenAux, dedupFirstSeenAux, if_neg h,
        if_neg (fun hx => h ((hiff k).mpr hx))]
      refine congrArg _ (ih _ _ fun a => ?_)
      simp [List.mem_cons, hiff a]

lemma groupFold_keys_order (entries : List (String × SubClientInfo)) :
    ∀ (subs : List SubscriptionInfo),
      subKeys (entries.foldl (fun ss e => addToSubs ss e.1 e.2) subs) =
        subKeys subs ++ dedupFirstSeenAux (subKeys subs) (entries.map Prod.fst) := by
  induction entries with
  | nil => intro subs; simp [dedupFirstSeenAux]
  | cons e es ih =>
    intro subs
    simp only [List.foldl_cons, List.map_cons, ih, subKeys_addToSubs, dedupFirstSeenAux]
    by_cases hm : e.1 ∈ subKeys subs
    · rw [if_pos hm, if_pos hm]
    · rw [if_neg hm, if_neg hm]
      rw [dedupFirstSeenAux_congr (es.map Prod.fst) (subKeys subs ++ [e.1]) (e.1 :: subKeys subs)
        (fun a => by simp [List.mem_append, List.mem_cons, or_comm])]
      simp

/-- C7: subscription grouping.  The scan produces groups with pairwise
distinct subscription ids; an id has a group exactly when some client in
the (non-skipped) inbounds carries it, so for k distinct non-empty ids
there are exactly k groups; each group holds exactly the clients tagged
with its id, across all inbounds, in first-seen inbound order and
within-inbound client order; every member of a group carries that non-
empty id (clients without a subscription id are in no group); and
inbounds whose settings blob is a string that fails to parse are skipped
without affecting the rest of the scan. -/
theorem subscription_grouping (inbounds : List Inbound) :
    (subKeys (getAllSubscriptions inbounds)).Nodup ∧
    (∀ sid, sid ∈ subKeys (getAllSubscriptions inbounds) ↔
      sid ∈ (allEntries inbounds).map Prod.fst) ∧
    (getAllSubscriptions inbounds).length =
      ((allEntries inbounds).map Prod.fst).dedup.length ∧
    (∀ gr ∈ getAllSubscriptions inbounds,
      gr.clients = ((allEntries inbounds).filter (fun e => e.1 == gr.subId)).map Prod.snd) ∧
    (∀ gr ∈ getAllSubscriptions inbounds, gr.subId ≠ "" ∧
      ∀ m ∈ gr.clients, m.client.subId = some gr.subId) ∧
    getAllSubscriptions inbounds =
      getAllSubscriptions (inbounds.filter fun ib => !settingsParseFails ib.settings) ∧
    subKeys (getAllSubscriptions inbounds) =
      dedupFirstSeen ((allEntries inbounds).map Prod.fst) := by
  have hnodup : (subKeys (getAllSubscriptions inbounds)).Nodup :=
    groupFold_keys_nodup (allEntries inbounds) [] (by simp [subKeys])
  have hmem : ∀ sid, sid ∈ subKeys (getAllSubscriptions inbounds) ↔
      sid ∈ (allEntries inbounds).map Prod.fst := by
    intro sid
    have := groupFold_keys_mem (allEntries inbounds) [] sid
    simpa [getAllSubscriptions, subKeys] using this
  have hclients : ∀ gr ∈ getAllSubscriptions inbounds,
      gr.clients = ((allEntries inbounds).filter (fun e => e.1 == gr.subId)).map Prod.snd := by
    intro gr hgr
    have h2 := find?_eq_self_of_nodup (getAllSubscriptions inbounds) hnodup gr hgr
    have h1 := groupFold_clientsOf (allEntries inbounds) [] gr.subId
    rw [show ((allEntries inbounds).foldl (fun ss e => addToSubs ss e.1 e.2) [] :
        List SubscriptionInfo) = getAllSubscriptions inbounds from rfl] at h1
    rw [clientsOf, h2] at h1
    simpa using h1
  refine ⟨hnodup, hmem, ?_, hclients, ?_, ?_, ?_⟩
  · have hfin : (subKeys (getAllSubscriptions inbounds)).toFinset =
        ((allEntries inbounds).map Prod.fst).toFinset := by
      ext a
      simpa using hmem a
    calc (getAllSubscriptions inbounds).length
        = (subKeys (getAllSubscriptions inbounds)).length := by simp [subKeys]
      _ = (subKeys (getAllSubscriptions inbounds)).dedup.length := by rw [hnodup.dedup]
      _ = (subKeys (getAllSubscriptions inbounds)).toFinset.card :=
          (List.card_toFinset _).symm
      _ = ((allEntries inbounds).map Prod.fst).toFinset.card := by rw [hfin]
      _ = ((allEntries inbounds).map Prod.fst).dedup.length := List.card_toFinset _
  · intro gr hgr
    constructor
    · have hk : gr.subId ∈ (allEntries inbounds).map Prod.fst :=
        (hmem gr.subId).mp (List.mem_map.mpr ⟨gr, hgr, rfl⟩)
      obtain ⟨e, he, hfst⟩ := List.mem_map.mp hk
      obtain ⟨ib, _, hein⟩ := List.mem_flatMap.mp he
      exact hfst ▸ (mem_inboundEntries hein).2
    · intro m hm
      rw [hclients gr hgr] at hm
      obtain ⟨e, he, hsnd⟩ := List.mem_map.mp hm
      have hef := List.mem_filter.mp he
      obtain ⟨ib, _, hein⟩ := List.mem_flatMap.mp hef.1
      have hbeq : e.1 = gr.subId := by simpa using hef.2
      rw [← hsnd, (mem_inboundEntries hein).1, hbeq]
  · simp only [getAllSubscriptions, allEntries_filter]
  · have := groupFold_keys_order (allEntries inbounds) []
    simpa [getAllSubscriptions, dedupFirstSeen, subKeys] using this

/-- Closed instance of `subscription_grouping`: two subscription ids over
three inbounds (one with an unparseable settings string, which is
skipped) give exactly two groups. -/
theorem subscription_grouping_witness :
    (getAllSubscriptions
        [⟨1, "a", "vless", .obj (some [⟨"id1", "e1", some "s1", none⟩,
            ⟨"id2", "e2", none, none⟩]), none⟩,
         ⟨2, "b", "vmess", .strOk (some [⟨"id3", "e3", some "s2", none⟩,
            ⟨"id4", "e4", some "s1", none⟩]), none⟩,
         ⟨3, "c", "trojan", .strBad, none⟩]).length = 2 ∧
    getAllSubscriptions
        [⟨1, "a", "vless", .obj (some [⟨"id1", "e1", some "s1", none⟩,
            ⟨"id2", "e2", none, none⟩]), none⟩,
         ⟨2, "b", "vmess", .strOk (some [⟨"id3", "e3", some "s2", none⟩,
            ⟨"id4", "e4", some "s1", none⟩]), none⟩,
         ⟨3, "c", "trojan", .strBad, none⟩] =
      getAllSubscriptions
        [⟨1, "a", "vless", .obj (some [⟨"id1", "e1", some "s1", none⟩,
            ⟨"id2", "e2", none, none⟩]), none⟩,
         ⟨2, "b", "vmess", .strOk (some [⟨"id3", "e3", some "s2", none⟩,
            ⟨"id4", "e4", some "s1", none⟩]), none⟩] ∧
    subKeys (getAllSubscriptions
        [⟨1, "a", "vless", .obj (some [⟨"id1", "e1", some "s1", none⟩,
            ⟨"id2", "e2", none, none⟩]), none⟩,
         ⟨2, "b", "vmess", .strOk (some [⟨"id3", "e3", some "s2", none⟩,
            ⟨"id4", "e4", some "s1", none⟩]), none⟩,
         ⟨3, "c", "trojan", .strBad, none⟩]) = ["s1", "s2"] := by
  have h := subscription_grouping
    [⟨1, "a", "vless", .obj (some [⟨"id1", "e1", some "s1", none⟩,
        ⟨"id2", "e2", none, none⟩]), none⟩,
     ⟨2, "b", "vmess", .strOk (some [⟨"id3", "e3", some "s2", none⟩,
        ⟨"id4", "e4", some "s1", none⟩]), none⟩,
     ⟨3, "c", "trojan", .strBad, none⟩]
  refine ⟨?_, ?_, ?_⟩
  · rw [h.2.2.1]; decide
  · exact h.2.2.2.2.2.1.trans (by rfl)
  · rw [h.2.2.2.2.2.2]; decide

/-- C9: empty-subscription deletion.  For a non-blank subId carried by no
client of any inbound, deleteClientsBySubId returns the zero aggregate
with an empty result list, issues no delete call, and raises no error. -/
theorem empty_subscription_deletion (inbounds : List Inbound) (delResult : Nat → Option String)
    (subId : String) (hblank : isBlank subId = false)
    (hnone : ∀ e ∈ allEntries inbounds, e.1 ≠ subId) :
    deleteClientsBySubId inbounds delResult subId = .ok (⟨0, 0, []⟩, 0) := by
  have hkeys : subId ∉ subKeys (getAllSubscriptions inbounds) := by
    intro hmem
    have h2 := (groupFold_keys_mem (allEntries inbounds) [] subId).mp
      (by simpa [getAllSubscriptions] using hmem)
    rcases h2 with h2 | h2
    · simp [subKeys] at h2
    · obtain ⟨e, he, hefst⟩ := List.mem_map.mp h2
      exact hnone e he hefst
  have hfind : (getAllSubscriptions inbounds).find? (fun sub => sub.subId == subId) = none := by
    rw [List.find?_eq_none]
    intro gr hgr hbeq
    have hge : gr.subId = subId := by simpa using hbeq
    apply hkeys
    rw [← hge]
    exact List.mem_map.mpr ⟨gr, hgr, rfl⟩
  simp [deleteClientsBySubId, hblank, hfind]

/-- Closed instance of `empty_subscription_deletion`. -/
theorem empty_subscription_deletion_witness :
    deleteClientsBySubId
        [⟨1, "a", "vless", .obj (some [⟨"id1", "e1", some "s1", none⟩]), none⟩]
        (fun _ => none) "zzz" = .ok (⟨0, 0, []⟩, 0) :=
  empty_subscription_deletion _ _ _ (by decide) (by decide)

end ThreeXUI
